import Mathlib

/-!
Shallow embedding of `lyapunovController.cpp` from the
`liapunov_slippage_controller` repository: the Lyapunov trajectory-tracking
controller for a unicycle robot.  Doubles are modelled as real numbers, the
two `std::vector` stores as lists, the mutable `LyapController` object as a
record threaded through each member function, and C++ exceptions as an
`Option` error component of the result.
-/

namespace LyapunovSlippage

open Real

/-- A planar pose `(x, y, θ)` (`Eigen::Vector3d`). -/
abbrev Pose := ℝ × ℝ × ℝ

/-- A control input `(v, ω)` (`Eigen::Vector2d`). -/
abbrev Vec2 := ℝ × ℝ

/-- The C standard-library `atan2(y, x)` (external collaborator of the
source): the angle of the point `(x, y)`, in `(−π, π]`. -/
noncomputable def atan2 (y x : ℝ) : ℝ :=
  if 0 < x then Real.arctan (y / x)
  else if x = 0 then if 0 ≤ y then π / 2 else -(π / 2)
  else if 0 ≤ y then Real.arctan (y / x) + π
  else Real.arctan (y / x) - π

/-- Modelled from the spec: the `sinc` helper used by the control law is not
under `src/`; the spec defines `sinc(z) = sin(z)/z` for `z ≠ 0` and
`sinc(0) = 1`. -/
noncomputable def sinc (z : ℝ) : ℝ :=
  if z = 0 then 1 else Real.sin z / z

/-- Modelled from the spec: `angleWithinPI` (the spec's `wrapToPI`) is not
under `src/`; the spec says it maps any angle into `(−π, π]`.  Subtracting
`2π · ⌈(θ − π) / (2π)⌉` is the unique such representative. -/
noncomputable def angleWithinPI (θ : ℝ) : ℝ :=
  θ - 2 * π * ⌈(θ - π) / (2 * π)⌉

/-- The exceptions the runtime entry points can surface:
`DESIRED_TRAJECTORY_INCOMPLETE` thrown by `computeLaw`, and
`std::out_of_range` thrown by `std::vector::at`. -/
inductive CtrlError where
  | desiredTrajectoryIncomplete
  | outOfRange
deriving DecidableEq

/-- The mutable state of a `LyapController` object.  `dt` is the value the
shared `RobotModel` returns from `getStepTime()`, and `model_state` is the
robot model's internal pose (used by `generateTrajectory`). -/
structure LyapState where
  Kp : ℝ
  Ktheta : ℝ
  current_time : ℝ
  time_end : ℝ
  e_x : ℝ
  e_y : ℝ
  e_theta : ℝ
  finished : Bool
  u_desired : List Vec2
  pose_desired : List Pose
  pose_offset : Pose
  dt : ℝ
  model_state : Pose

/-- The constructor `LyapController(Kp, Ktheta, dt)`: zeroes the times and
cached errors, leaves both stores empty, sets `finished = true`, and
initialises the robot model with zero state and the given `dt` (the
header-declared `pose_offset` member is zero-initialised). -/
def mkLyapController (Kp Ktheta dt : ℝ) : LyapState :=
  { Kp := Kp
    Ktheta := Ktheta
    current_time := 0
    time_end := 0
    e_x := 0
    e_y := 0
    e_theta := 0
    finished := true
    u_desired := []
    pose_desired := []
    pose_offset := (0, 0, 0)
    dt := dt
    model_state := (0, 0, 0) }

/-- `std::vector::at` with an `int` index: the element when `0 ≤ i < size`,
otherwise `none` (an `std::out_of_range` throw). -/
def atIdx {α : Type} (l : List α) (i : ℤ) : Option α :=
  if 0 ≤ i then l.get? i.toNat else none

/-- `LyapController::computeMaxTime`: `getStepTime() * pose_desired.size()`. -/
noncomputable def computeMaxTime (s : LyapState) : ℝ :=
  s.dt * (s.pose_desired.length : ℝ)

/-- `LyapController::getIndexIntegerBasedOnTime`: `round(t / dt)`, clamped
from above to `pose_desired.size() − 1`. -/
noncomputable def getIndexIntegerBasedOnTime (s : LyapState) (t : ℝ) : ℤ :=
  let n_max : ℤ := (s.pose_desired.length : ℤ)
  let index : ℤ := round (t / s.dt)
  if n_max ≤ index then n_max - 1 else index

/-- `LyapController::getControlInputDesiredOnTime`:
`u_desired.at(getIndexIntegerBasedOnTime(t))`. -/
noncomputable def getControlInputDesiredOnTime (s : LyapState) (t : ℝ) : Option Vec2 :=
  atIdx s.u_desired (getIndexIntegerBasedOnTime s t)

/-- `LyapController::getPoseDesiredOnTime`:
`pose_desired.at(getIndexIntegerBasedOnTime(t))`. -/
noncomputable def getPoseDesiredOnTime (s : LyapState) (t : ℝ) : Option Pose :=
  atIdx s.pose_desired (getIndexIntegerBasedOnTime s t)

/-- `LyapController::updateTrackingErrors`: caches
`e_x = x − x_ref`, `e_y = y − y_ref`, `e_theta = angleWithinPI(θ − θ_ref)`. -/
noncomputable def updateTrackingErrors (s : LyapState) (pose_ref pose : Pose) : LyapState :=
  { s with
    e_x := pose.1 - pose_ref.1
    e_y := pose.2.1 - pose_ref.2.1
    e_theta := angleWithinPI (pose.2.2 - pose_ref.2.2) }

/-- The result of one `computeLaw`/`step` call: the object state afterwards,
the final value of the `u_out` out-parameter, and the exception surfaced, if
any. -/
structure LawResult where
  state : LyapState
  u_out : Vec2
  err : Option CtrlError

/-- `LyapController::computeLaw`.  Empty stores: zero `u_out` and throw
`DESIRED_TRAJECTORY_INCOMPLETE`.  Finished: zero `u_out`, return.  Otherwise
look up `u_ref` and `pose_ref` at `current_time` (each `vector::at` may throw
`std::out_of_range`, leaving `u_out` untouched), cache the tracking errors and
emit `u_ref + du` per the Lyapunov law. -/
noncomputable def computeLaw (s : LyapState) (pose : Pose) (u_out : Vec2) : LawResult :=
  if s.u_desired = [] ∨ s.pose_desired = [] then
    ⟨s, (0, 0), some .desiredTrajectoryIncomplete⟩
  else if s.finished then
    ⟨s, (0, 0), none⟩
  else
    match getControlInputDesiredOnTime s s.current_time,
          getPoseDesiredOnTime s s.current_time with
    | some u_ref, some pose_ref =>
      let s' := updateTrackingErrors s pose_ref pose
      let alpha := pose.2.2 + pose_ref.2.2
      let psi := atan2 s'.e_y s'.e_x
      let v_ref := u_ref.1
      let e_xy := Real.sqrt (s'.e_x ^ 2 + s'.e_y ^ 2)
      let du_v := -s.Kp * e_xy * Real.cos (pose.2.2 - psi)
      let du_w := -s.Ktheta * s'.e_theta
          - v_ref * sinc (s'.e_theta * 0.5) * Real.sin (psi - alpha * 0.5)
      ⟨s', (u_ref.1 + du_v, u_ref.2 + du_w), none⟩
    | _, _ => ⟨s, u_out, some .outOfRange⟩

/-- `LyapController::endReached`: sets `finished` once
`current_time ≥ computeMaxTime()`. -/
noncomputable def endReached (s : LyapState) : LyapState :=
  if computeMaxTime s ≤ s.current_time then { s with finished := true } else s

/-- `LyapController::step`: `computeLaw` then `endReached` (skipped when
`computeLaw` throws, since the exception propagates). -/
noncomputable def step (s : LyapState) (pose : Pose) (vel_out : Vec2) : LawResult :=
  let r := computeLaw s pose vel_out
  match r.err with
  | none => ⟨endReached r.state, r.u_out, none⟩
  | some e => ⟨r.state, r.u_out, some e⟩

/-- The roto-translation `copyTrajectory` applies to each supplied pose
sample: `x' = x₀ + cos θ₀ · x − sin θ₀ · y`, `y' = y₀ + sin θ₀ · x + cos θ₀ · y`,
`θ' = θ₀ + θ`. -/
noncomputable def rotoTranslate (off p : Pose) : Pose :=
  (off.1 + (Real.cos off.2.2 * p.1 - Real.sin off.2.2 * p.2.1),
   off.2.1 + (Real.sin off.2.2 * p.1 + Real.cos off.2.2 * p.2.1),
   off.2.2 + p.2.2)

/-- The inverse of the rigid roto-translation with offset
`(x₀, y₀, θ₀)`: rotate by `−θ₀` after removing the translation. -/
noncomputable def invRotoTranslate (off q : Pose) : Pose :=
  (Real.cos off.2.2 * (q.1 - off.1) + Real.sin off.2.2 * (q.2.1 - off.2.1),
   -Real.sin off.2.2 * (q.1 - off.1) + Real.cos off.2.2 * (q.2.1 - off.2.1),
   q.2.2 - off.2.2)

/-- `LyapController::copyTrajectory`: pushes each `(v.at(i), omega.at(i))`
for `i < v.size()` onto `u_desired`, pushes the roto-translated
`(x.at(i), y.at(i), theta.at(i))` for `i < x.size()` onto `pose_desired`,
then recomputes `time_end` and clears `finished`.  `none` models the
`std::out_of_range` throw when a companion array is shorter than the one
driving its loop. -/
noncomputable def copyTrajectory (s : LyapState) (v ω x y θ : List ℝ) :
    Option LyapState :=
  if v.length ≤ ω.length ∧ x.length ≤ y.length ∧ x.length ≤ θ.length then
    let u' := s.u_desired ++ v.zip ω
    let poses' := s.pose_desired ++
      (x.zip (y.zip θ)).map (fun p => rotoTranslate s.pose_offset p)
    some { s with
      u_desired := u'
      pose_desired := poses'
      time_end := s.dt * (poses'.length : ℝ)
      finished := false }
  else none

/-- Modelled from the spec: `UnicycleModel::integrate` is not under `src/`;
the fixed-step unicycle kinematic integration of §8.4,
`x' = x + dt·v·cos θ`, `y' = y + dt·v·sin θ`, `θ' = θ + dt·ω`. -/
noncomputable def unicycleIntegrate (dt : ℝ) (p : Pose) (u : Vec2) : Pose :=
  (p.1 + dt * u.1 * Real.cos p.2.2,
   p.2.1 + dt * u.1 * Real.sin p.2.2,
   p.2.2 + dt * u.2)

/-- The loop body of `generateTrajectory`: integrate the model state through
the input list, returning the final model state and the list of intermediate
poses in the order they are pushed onto `pose_desired`. -/
noncomputable def integrateLoop (dt : ℝ) (p : Pose) : List Vec2 → Pose × List Pose
  | [] => (p, [])
  | u :: rest =>
    let p1 := unicycleIntegrate dt p u
    let r := integrateLoop dt p1 rest
    (r.1, p1 :: r.2)

/-- `LyapController::generateTrajectory`: resets the robot model to
`pose_offset`, integrates it through `u_desired` pushing each pose onto
`pose_desired`, then recomputes `time_end` and clears `finished`. -/
noncomputable def generateTrajectory (s : LyapState) : LyapState :=
  let r := integrateLoop s.dt s.pose_offset s.u_desired
  let poses' := s.pose_desired ++ r.2
  { s with
    model_state := r.1
    pose_desired := poses'
    time_end := s.dt * (poses'.length : ℝ)
    finished := false }

/-- A concrete mid-tracking controller state: one stored sample, tracking in
progress at time `0` with unit gains and unit step time. -/
def exampleTracking : LyapState :=
  { Kp := 2
    Ktheta := 3
    current_time := 0
    time_end := 1
    e_x := 0
    e_y := 0
    e_theta := 0
    finished := false
    u_desired := [(1, 4)]
    pose_desired := [(5, 6, 7)]
    pose_offset := (0, 0, 0)
    dt := 1
    model_state := (0, 0, 0) }

/-- A concrete state whose input store is non-empty but shorter than its
pose store. -/
def exampleShortInputs : LyapState :=
  { Kp := 1
    Ktheta := 1
    current_time := 0
    time_end := 2
    e_x := 0
    e_y := 0
    e_theta := 0
    finished := false
    u_desired := [(1, 0)]
    pose_desired := [(0, 0, 0), (1, 0, 0)]
    pose_offset := (0, 0, 0)
    dt := 1
    model_state := (0, 0, 0) }

/-- A concrete controller state as it stands right after loading a
one-sample replay trajectory into a fresh controller. -/
def exampleLoaded : LyapState :=
  { Kp := 1
    Ktheta := 1
    current_time := 0
    time_end := 1
    e_x := 0
    e_y := 0
    e_theta := 0
    finished := false
    u_desired := [(1, 1)]
    pose_desired := [(1, 1, 1)]
    pose_offset := (0, 0, 0)
    dt := 1
    model_state := (0, 0, 0) }

/-- The controller states reachable through the public interface:
construction, the two trajectory loaders, `step`, and the caller-owned
clock.  The source never writes `current_time` itself; per the spec the
external control loop advances it between steps, so the clock transition
lets `current_time` move forward (never backward) at the caller's cadence. -/
inductive Reachable : LyapState → Prop where
  | init (Kp Ktheta dt : ℝ) : Reachable (mkLyapController Kp Ktheta dt)
  | load {s s' : LyapState} (v ω x y θ : List ℝ) : Reachable s →
      copyTrajectory s v ω x y θ = some s' → Reachable s'
  | gen {s : LyapState} : Reachable s → Reachable (generateTrajectory s)
  | tick {s : LyapState} (pose : Pose) (u0 : Vec2) : Reachable s →
      Reachable (step s pose u0).state
  | clock {s : LyapState} (t : ℝ) : Reachable s → s.current_time ≤ t →
      Reachable { s with current_time := t }

/-! ## Helper lemmas -/

/-- `updateTrackingErrors` changes only the three cached errors. -/
theorem updateTrackingErrors_frame (s : LyapState) (pr p : Pose) :
    (updateTrackingErrors s pr p).Kp = s.Kp ∧
    (updateTrackingErrors s pr p).Ktheta = s.Ktheta ∧
    (updateTrackingErrors s pr p).current_time = s.current_time ∧
    (updateTrackingErrors s pr p).time_end = s.time_end ∧
    (updateTrackingErrors s pr p).finished = s.finished ∧
    (updateTrackingErrors s pr p).u_desired = s.u_desired ∧
    (updateTrackingErrors s pr p).pose_desired = s.pose_desired ∧
    (updateTrackingErrors s pr p).pose_offset = s.pose_offset ∧
    (updateTrackingErrors s pr p).dt = s.dt ∧
    (updateTrackingErrors s pr p).model_state = s.model_state := by
  simp [updateTrackingErrors]

/-- The state returned by `computeLaw` is either the input state or the input
state with refreshed tracking errors. -/
theorem computeLaw_state_cases (s : LyapState) (pose : Pose) (u0 : Vec2) :
    (computeLaw s pose u0).state = s ∨
    ∃ pr, (computeLaw s pose u0).state = updateTrackingErrors s pr pose := by
  unfold computeLaw
  split
  · exact Or.inl rfl
  · split
    · exact Or.inl rfl
    · split
      · exact Or.inr ⟨_, rfl⟩
      · exact Or.inl rfl

/-- `computeLaw` changes no field but the three cached errors. -/
theorem computeLaw_frame (s : LyapState) (pose : Pose) (u0 : Vec2) :
    (computeLaw s pose u0).state.Kp = s.Kp ∧
    (computeLaw s pose u0).state.Ktheta = s.Ktheta ∧
    (computeLaw s pose u0).state.current_time = s.current_time ∧
    (computeLaw s pose u0).state.time_end = s.time_end ∧
    (computeLaw s pose u0).state.finished = s.finished ∧
    (computeLaw s pose u0).state.u_desired = s.u_desired ∧
    (computeLaw s pose u0).state.pose_desired = s.pose_desired ∧
    (computeLaw s pose u0).state.pose_offset = s.pose_offset ∧
    (computeLaw s pose u0).state.dt = s.dt ∧
    (computeLaw s pose u0).state.model_state = s.model_state := by
  rcases computeLaw_state_cases s pose u0 with h | ⟨pr, h⟩
  · rw [h]
    exact ⟨rfl, rfl, rfl, rfl, rfl, rfl, rfl, rfl, rfl, rfl⟩
  · rw [h]
    exact updateTrackingErrors_frame s pr pose

/-- `endReached` changes at most `finished`. -/
theorem endReached_frame (s : LyapState) :
    (endReached s).Kp = s.Kp ∧
    (endReached s).Ktheta = s.Ktheta ∧
    (endReached s).current_time = s.current_time ∧
    (endReached s).time_end = s.time_end ∧
    (endReached s).e_x = s.e_x ∧
    (endReached s).e_y = s.e_y ∧
    (endReached s).e_theta = s.e_theta ∧
    (endReached s).u_desired = s.u_desired ∧
    (endReached s).pose_desired = s.pose_desired ∧
    (endReached s).pose_offset = s.pose_offset ∧
    (endReached s).dt = s.dt ∧
    (endReached s).model_state = s.model_state := by
  unfold endReached
  split <;> simp

/-- `endReached` sets `finished` to true exactly on `current_time ≥ max time`,
except that an already-true flag persists. -/
theorem endReached_finished (s : LyapState) :
    (endReached s).finished = (s.finished || decide (computeMaxTime s ≤ s.current_time)) := by
  unfold endReached
  split <;> rename_i h <;> simp [h]

/-- `computeMaxTime` only reads `dt` and the pose store. -/
theorem computeMaxTime_congr {s s' : LyapState} (hdt : s'.dt = s.dt)
    (hp : s'.pose_desired = s.pose_desired) :
    computeMaxTime s' = computeMaxTime s := by
  unfold computeMaxTime
  rw [hdt, hp]

/-- The state after `step` is the `computeLaw` state, possibly passed through
`endReached`. -/
theorem step_state_cases (s : LyapState) (pose : Pose) (u0 : Vec2) :
    (step s pose u0).state = endReached (computeLaw s pose u0).state ∨
    (step s pose u0).state = (computeLaw s pose u0).state := by
  cases h : (computeLaw s pose u0).err <;> simp [step, h]

/-- `step` changes no field but the cached errors and `finished`. -/
theorem step_frame (s : LyapState) (pose : Pose) (u0 : Vec2) :
    (step s pose u0).state.Kp = s.Kp ∧
    (step s pose u0).state.Ktheta = s.Ktheta ∧
    (step s pose u0).state.current_time = s.current_time ∧
    (step s pose u0).state.time_end = s.time_end ∧
    (step s pose u0).state.u_desired = s.u_desired ∧
    (step s pose u0).state.pose_desired = s.pose_desired ∧
    (step s pose u0).state.pose_offset = s.pose_offset ∧
    (step s pose u0).state.dt = s.dt ∧
    (step s pose u0).state.model_state = s.model_state := by
  obtain ⟨c1, c2, c3, c4, _, c6, c7, c8, c9, c10⟩ := computeLaw_frame s pose u0
  rcases step_state_cases s pose u0 with h | h <;> rw [h]
  · obtain ⟨e1, e2, e3, e4, _, _, _, e8, e9, e10, e11, e12⟩ :=
      endReached_frame (computeLaw s pose u0).state
    exact ⟨e1.trans c1, e2.trans c2, e3.trans c3, e4.trans c4, e8.trans c6,
      e9.trans c7, e10.trans c8, e11.trans c9, e12.trans c10⟩
  · exact ⟨c1, c2, c3, c4, c6, c7, c8, c9, c10⟩

/-- A successful `copyTrajectory` clears `finished`. -/
theorem copyTrajectory_some_finished {s s' : LyapState} {v ω x y θ : List ℝ}
    (h : copyTrajectory s v ω x y θ = some s') : s'.finished = false := by
  unfold copyTrajectory at h
  split at h
  · injection h with h
    subst h
    rfl
  · cases h

/-- `step` surfaces exactly the exception `computeLaw` threw. -/
theorem step_err (s : LyapState) (pose : Pose) (u0 : Vec2) :
    (step s pose u0).err = (computeLaw s pose u0).err := by
  cases h : (computeLaw s pose u0).err <;> simp [step, h]

/-- When `step` does not throw, its state is `endReached` of the
`computeLaw` state. -/
theorem step_err_none {s : LyapState} {pose : Pose} {u0 : Vec2}
    (h : (step s pose u0).err = none) :
    (step s pose u0).state = endReached (computeLaw s pose u0).state := by
  cases he : (computeLaw s pose u0).err <;> simp [step, he] at h ⊢

/-- The reachable-state invariant: a raised `finished` flag certifies that
`current_time` has passed the end of the stored trajectory. -/
theorem reachable_finished_inv {s : LyapState} (h : Reachable s) :
    s.finished = true → computeMaxTime s ≤ s.current_time := by
  induction h with
  | init Kp Ktheta dt =>
    intro _
    simp [mkLyapController, computeMaxTime]
  | load v ω x y θ hr hc ih =>
    intro hf
    simp [copyTrajectory_some_finished hc] at hf
  | gen hr ih =>
    intro hf
    simp [generateTrajectory] at hf
  | @tick s pose u0 hr ih =>
    intro hf
    obtain ⟨_, _, c3, _, c5, _, c7, _, c9, _⟩ := computeLaw_frame s pose u0
    rcases step_state_cases s pose u0 with h | h <;> rw [h] at hf ⊢
    · obtain ⟨_, _, e3, _, _, _, _, _, e9, _, e11, _⟩ :=
        endReached_frame (computeLaw s pose u0).state
      rw [(computeMaxTime_congr e11 e9).trans (computeMaxTime_congr c9 c7), e3, c3]
      rw [endReached_finished, Bool.or_eq_true] at hf
      rcases hf with hf | hf
      · exact ih (c5 ▸ hf)
      · have := of_decide_eq_true hf
        rwa [computeMaxTime_congr c9 c7, c3] at this
    · rw [computeMaxTime_congr c9 c7, c3]
      exact ih (c5 ▸ hf)
  | @clock s t hr hle ih =>
    intro hf
    have hmax : computeMaxTime { s with current_time := t } = computeMaxTime s :=
      computeMaxTime_congr rfl rfl
    rw [hmax]
    exact le_trans (ih hf) hle

/-! ## Claim theorems -/

/-- C4: whenever the desired-input or desired-pose store is empty — in
particular on a freshly constructed controller, where `finished` starts out
true — `computeLaw`, and hence `step`, zeroes the output velocity and raises
`DESIRED_TRAJECTORY_INCOMPLETE`; the emptiness check runs before the
`finished` check, so this happens regardless of `finished`. -/
theorem empty_trajectory_guard (s : LyapState) (pose : Pose) (u0 : Vec2)
    (h : s.u_desired = [] ∨ s.pose_desired = []) :
    computeLaw s pose u0 = ⟨s, (0, 0), some .desiredTrajectoryIncomplete⟩ ∧
    step s pose u0 = ⟨s, (0, 0), some .desiredTrajectoryIncomplete⟩ ∧
    (mkLyapController s.Kp s.Ktheta s.dt).finished = true := by
  have hc : computeLaw s pose u0 = ⟨s, (0, 0), some .desiredTrajectoryIncomplete⟩ := by
    unfold computeLaw
    rw [if_pos h]
  exact ⟨hc, by simp [step, hc], rfl⟩

/-- Witness for C4: a freshly constructed controller (empty stores,
`finished = true`) raises the error from `step` with zero output. -/
theorem empty_trajectory_guard_witness :
    step (mkLyapController 1 2 (1 / 10)) (0, 0, 0) (3, 4) =
      ⟨mkLyapController 1 2 (1 / 10), (0, 0), some .desiredTrajectoryIncomplete⟩ :=
  (empty_trajectory_guard (mkLyapController 1 2 (1 / 10)) (0, 0, 0) (3, 4)
    (Or.inl rfl)).2.1

/-- C8: with non-empty stores and `finished = true`, `computeLaw` returns
zero velocity, no error, and the entirely unchanged state (cached errors,
times, flag and both stores included). -/
theorem finished_returns_zero (s : LyapState) (pose : Pose) (u0 : Vec2)
    (h1 : s.u_desired ≠ []) (h2 : s.pose_desired ≠ []) (hf : s.finished = true) :
    computeLaw s pose u0 = ⟨s, (0, 0), none⟩ := by
  unfold computeLaw
  rw [if_neg (by simp [h1, h2]), if_pos (by simp [hf])]

/-- Witness for C8: a concrete finished controller with one stored sample. -/
theorem finished_returns_zero_witness :
    computeLaw
      { Kp := 1, Ktheta := 1, current_time := 5, time_end := 1,
        e_x := 7, e_y := 8, e_theta := 9, finished := true,
        u_desired := [(1, 2)], pose_desired := [(0, 0, 0)],
        pose_offset := (0, 0, 0), dt := 1, model_state := (0, 0, 0) }
      (1, 2, 3) (4, 5) =
    ⟨{ Kp := 1, Ktheta := 1, current_time := 5, time_end := 1,
        e_x := 7, e_y := 8, e_theta := 9, finished := true,
        u_desired := [(1, 2)], pose_desired := [(0, 0, 0)],
        pose_offset := (0, 0, 0), dt := 1, model_state := (0, 0, 0) },
      (0, 0), none⟩ :=
  finished_returns_zero _ (1, 2, 3) (4, 5) (by simp) (by simp) rfl

/-- C9: side-effect footprint of the runtime entry points.  `computeLaw`
leaves every field but the cached errors `(e_x, e_y, e_theta)` unchanged —
gains, times, `finished`, both stores, offset, `dt` and model state — and
`step` leaves every field but the cached errors and `finished` unchanged; in
particular neither call modifies the gains or either stored sequence. -/
theorem effect_footprint :
    (∀ (s : LyapState) (pose : Pose) (u0 : Vec2),
      (computeLaw s pose u0).state.Kp = s.Kp ∧
      (computeLaw s pose u0).state.Ktheta = s.Ktheta ∧
      (computeLaw s pose u0).state.current_time = s.current_time ∧
      (computeLaw s pose u0).state.time_end = s.time_end ∧
      (computeLaw s pose u0).state.finished = s.finished ∧
      (computeLaw s pose u0).state.u_desired = s.u_desired ∧
      (computeLaw s pose u0).state.pose_desired = s.pose_desired ∧
      (computeLaw s pose u0).state.pose_offset = s.pose_offset ∧
      (computeLaw s pose u0).state.dt = s.dt ∧
      (computeLaw s pose u0).state.model_state = s.model_state) ∧
    (∀ (s : LyapState) (pose : Pose) (u0 : Vec2),
      (step s pose u0).state.Kp = s.Kp ∧
      (step s pose u0).state.Ktheta = s.Ktheta ∧
      (step s pose u0).state.current_time = s.current_time ∧
      (step s pose u0).state.time_end = s.time_end ∧
      (step s pose u0).state.u_desired = s.u_desired ∧
      (step s pose u0).state.pose_desired = s.pose_desired ∧
      (step s pose u0).state.pose_offset = s.pose_offset ∧
      (step s pose u0).state.dt = s.dt ∧
      (step s pose u0).state.model_state = s.model_state) :=
  ⟨computeLaw_frame, step_frame⟩

/-- C5: monotonic completion.  On every reachable state (the caller's clock
may have advanced `current_time` arbitrarily far forward), `finished` is
false whenever `current_time < n·dt`; a non-throwing `step` leaves
`finished` true exactly when `current_time ≥ n·dt` (the check runs after
the control computation, via `endReached`) — both on reachable states and,
with no reachability needed, on every tracking state (`finished = false`)
whatever its `current_time`; a raised flag survives any further `step`; and
each trajectory loader resets the flag to false. -/
theorem monotonic_completion :
    (∀ s : LyapState, Reachable s →
      s.current_time < computeMaxTime s → s.finished = false) ∧
    (∀ (s : LyapState) (pose : Pose) (u0 : Vec2), Reachable s →
      (step s pose u0).err = none →
      ((step s pose u0).state.finished = true ↔
        computeMaxTime s ≤ s.current_time)) ∧
    (∀ (s : LyapState) (pose : Pose) (u0 : Vec2), s.finished = false →
      (step s pose u0).err = none →
      ((step s pose u0).state.finished = true ↔
        computeMaxTime s ≤ s.current_time)) ∧
    (∀ (s : LyapState) (pose : Pose) (u0 : Vec2), s.finished = true →
      (step s pose u0).state.finished = true) ∧
    (∀ (s s' : LyapState) (v ω x y θ : List ℝ),
      copyTrajectory s v ω x y θ = some s' → s'.finished = false) ∧
    (∀ s : LyapState, (generateTrajectory s).finished = false) := by
  refine ⟨fun s hr hlt => ?_, fun s pose u0 hr he => ?_,
    fun s pose u0 hf he => ?_, fun s pose u0 hf => ?_,
    fun s s' v ω x y θ hc => copyTrajectory_some_finished hc,
    fun s => by simp [generateTrajectory]⟩
  · cases hfin : s.finished
    · rfl
    · exact absurd (reachable_finished_inv hr hfin) (not_le.mpr hlt)
  · obtain ⟨_, _, c3, _, c5, _, c7, _, c9, _⟩ := computeLaw_frame s pose u0
    rw [step_err_none he, endReached_finished, Bool.or_eq_true, c5, c3,
      computeMaxTime_congr c9 c7]
    constructor
    · rintro (hf | hf)
      · exact reachable_finished_inv hr hf
      · exact of_decide_eq_true hf
    · intro hle
      exact Or.inr (decide_eq_true hle)
  · obtain ⟨_, _, c3, _, c5, _, c7, _, c9, _⟩ := computeLaw_frame s pose u0
    rw [step_err_none he, endReached_finished, c5, hf, c3,
      computeMaxTime_congr c9 c7, Bool.false_or, decide_eq_true_eq]
  · obtain ⟨_, _, _, _, c5, _, _, _, _, _⟩ := computeLaw_frame s pose u0
    rcases step_state_cases s pose u0 with h | h <;> rw [h]
    · rw [endReached_finished, Bool.or_eq_true]
      exact Or.inl (c5.trans hf)
    · exact c5.trans hf

/-- Witness for C5: a freshly loaded one-sample trajectory whose clock the
caller has advanced past the trajectory end; the next `step` raises
`finished`. -/
theorem monotonic_completion_witness :
    (step { exampleLoaded with current_time := 3 } (0, 0, 0)
      (0, 0)).state.finished = true :=
  (monotonic_completion.2.1 { exampleLoaded with current_time := 3 } (0, 0, 0)
    (0, 0)
    (Reachable.clock 3
      (Reachable.load [1] [1] [1] [1] [1] (Reachable.init 1 1 1)
        (by simp [copyTrajectory, mkLyapController, exampleLoaded,
          rotoTranslate]))
      (by norm_num [exampleLoaded]))
    (by rw [step_err]
        simp [computeLaw, getControlInputDesiredOnTime, getPoseDesiredOnTime,
          getIndexIntegerBasedOnTime, atIdx, exampleLoaded])).mpr
    (by norm_num [computeMaxTime, exampleLoaded])

/-- `angleWithinPI` lands in `(−π, π]`. -/
theorem angleWithinPI_range (θ : ℝ) :
    -π < angleWithinPI θ ∧ angleWithinPI θ ≤ π := by
  unfold angleWithinPI
  have h2π : (0 : ℝ) < 2 * π := by positivity
  have hA : θ - π ≤ (⌈(θ - π) / (2 * π)⌉ : ℝ) * (2 * π) :=
    (div_le_iff₀ h2π).mp (Int.le_ceil _)
  have hB : ((⌈(θ - π) / (2 * π)⌉ : ℝ) - 1) * (2 * π) < θ - π :=
    (lt_div_iff₀ h2π).mp (by linarith [Int.ceil_lt_add_one ((θ - π) / (2 * π))])
  constructor <;> nlinarith [hA, hB]

/-- `angleWithinPI` at `6` subtracts one full turn. -/
theorem angleWithinPI_six : angleWithinPI 6 = 6 - 2 * π := by
  have h2π : (0 : ℝ) < 2 * π := by positivity
  have hc : ⌈((6 : ℝ) - π) / (2 * π)⌉ = 1 := by
    rw [Int.ceil_eq_iff]
    constructor
    · push_cast
      have h4 : π < 4 := pi_lt_four
      have : (0 : ℝ) < (6 - π) / (2 * π) := div_pos (by linarith) h2π
      linarith
    · push_cast
      rw [div_le_one h2π]
      have h3 : 3 < π := pi_gt_three
      linarith
  unfold angleWithinPI
  rw [hc]
  push_cast
  ring

/-- C2: `updateTrackingErrors` stores `e_x = x − x_ref`, `e_y = y − y_ref`
and `e_theta = angleWithinPI(θ − θ_ref)`; the wrap always lands in
`(−π, π]`; and at `θ = 3`, `θ_ref = −3` the stored `e_theta` is `6 − 2π`,
which is not `6`. -/
theorem tracking_errors_spec :
    (∀ (s : LyapState) (pose_ref pose : Pose),
      (updateTrackingErrors s pose_ref pose).e_x = pose.1 - pose_ref.1 ∧
      (updateTrackingErrors s pose_ref pose).e_y = pose.2.1 - pose_ref.2.1 ∧
      (updateTrackingErrors s pose_ref pose).e_theta =
        angleWithinPI (pose.2.2 - pose_ref.2.2)) ∧
    (∀ θ : ℝ, -π < angleWithinPI θ ∧ angleWithinPI θ ≤ π) ∧
    (∀ (s : LyapState) (x y x_ref y_ref : ℝ),
      (updateTrackingErrors s (x_ref, y_ref, -3) (x, y, 3)).e_theta = 6 - 2 * π) ∧
    (6 - 2 * π : ℝ) ≠ 6 := by
  refine ⟨fun s pr p => ⟨rfl, rfl, rfl⟩, angleWithinPI_range,
    fun s x y xr yr => ?_, fun h => pi_ne_zero (by linarith)⟩
  show angleWithinPI ((3 : ℝ) - (-3)) = 6 - 2 * π
  norm_num [angleWithinPI_six]

/-- Rounding a non-negative real is non-negative. -/
theorem round_nonneg_of_nonneg {x : ℝ} (hx : 0 ≤ x) : 0 ≤ round x := by
  rw [round_eq]
  exact Int.le_floor.mpr (by push_cast; linarith)

/-- The clamped index, as a `min` with explicit bounds. -/
theorem getIndex_eq_min (s : LyapState) (t : ℝ) (ht : 0 ≤ t) (hdt : 0 < s.dt)
    (hn : 1 ≤ s.pose_desired.length) :
    getIndexIntegerBasedOnTime s t =
      min (round (t / s.dt)) ((s.pose_desired.length : ℤ) - 1) ∧
    0 ≤ getIndexIntegerBasedOnTime s t ∧
    getIndexIntegerBasedOnTime s t ≤ (s.pose_desired.length : ℤ) - 1 := by
  have hr : 0 ≤ round (t / s.dt) := round_nonneg_of_nonneg (div_nonneg ht hdt.le)
  have hn' : (1 : ℤ) ≤ (s.pose_desired.length : ℤ) := by exact_mod_cast hn
  unfold getIndexIntegerBasedOnTime
  by_cases hc : (s.pose_desired.length : ℤ) ≤ round (t / s.dt)
  · rw [if_pos hc]
    exact ⟨(min_eq_right (by omega)).symm, by omega, by omega⟩
  · rw [if_neg hc]
    exact ⟨(min_eq_left (by omega)).symm, hr, by omega⟩

/-- C3: for `t ≥ 0` on a non-empty trajectory with positive `dt`, the index
is `round(t / dt)` clamped into `[0, n−1]`, and both lookups return exactly
the stored sample at that index (no interpolation). -/
theorem time_index_spec (s : LyapState) (t : ℝ) (ht : 0 ≤ t) (hdt : 0 < s.dt)
    (hn : 1 ≤ s.pose_desired.length) :
    getIndexIntegerBasedOnTime s t =
      min (round (t / s.dt)) ((s.pose_desired.length : ℤ) - 1) ∧
    0 ≤ getIndexIntegerBasedOnTime s t ∧
    getIndexIntegerBasedOnTime s t ≤ (s.pose_desired.length : ℤ) - 1 ∧
    getPoseDesiredOnTime s t =
      s.pose_desired.get? (getIndexIntegerBasedOnTime s t).toNat ∧
    getControlInputDesiredOnTime s t =
      s.u_desired.get? (getIndexIntegerBasedOnTime s t).toNat := by
  obtain ⟨h1, h2, h3⟩ := getIndex_eq_min s t ht hdt hn
  refine ⟨h1, h2, h3, ?_, ?_⟩
  · unfold getPoseDesiredOnTime atIdx
    rw [if_pos h2]
  · unfold getControlInputDesiredOnTime atIdx
    rw [if_pos h2]

/-- Witness for C3: a two-sample trajectory queried past its end saturates to
the last index. -/
theorem time_index_spec_witness :
    0 ≤ getIndexIntegerBasedOnTime
      { Kp := 1, Ktheta := 1, current_time := 0, time_end := 2,
        e_x := 0, e_y := 0, e_theta := 0, finished := false,
        u_desired := [(1, 0), (1, 0)], pose_desired := [(0, 0, 0), (1, 0, 0)],
        pose_offset := (0, 0, 0), dt := 1, model_state := (0, 0, 0) } 5 :=
  (time_index_spec _ 5 (by norm_num) (by norm_num) (by norm_num)).2.1

/-- On a non-empty, length-consistent trajectory at a non-negative time,
both lookups succeed. -/
theorem lookups_succeed (s : LyapState) (ht : 0 ≤ s.current_time)
    (hdt : 0 < s.dt) (h2 : s.pose_desired ≠ [])
    (hlen : s.u_desired.length = s.pose_desired.length) :
    ∃ u_ref pose_ref,
      getControlInputDesiredOnTime s s.current_time = some u_ref ∧
      getPoseDesiredOnTime s s.current_time = some pose_ref := by
  have hn : 1 ≤ s.pose_desired.length := List.length_pos.mpr h2
  obtain ⟨_, hge, hle⟩ := getIndex_eq_min s s.current_time ht hdt hn
  have hnn : (1 : ℤ) ≤ (s.pose_desired.length : ℤ) := by exact_mod_cast hn
  have hlt : (getIndexIntegerBasedOnTime s s.current_time).toNat <
      s.pose_desired.length := by omega
  have hltu : (getIndexIntegerBasedOnTime s s.current_time).toNat <
      s.u_desired.length := by omega
  refine ⟨s.u_desired.get ⟨_, hltu⟩, s.pose_desired.get ⟨_, hlt⟩, ?_, ?_⟩
  · unfold getControlInputDesiredOnTime atIdx
    rw [if_pos hge]
    exact List.get?_eq_get hltu
  · unfold getPoseDesiredOnTime atIdx
    rw [if_pos hge]
    exact List.get?_eq_get hlt

/-- C1: with non-empty, length-consistent stores, `finished = false`,
non-negative `current_time` and positive `dt`, `computeLaw` caches the
tracking errors for the looked-up reference pose and emits `u_ref + du`
with `du.v = −Kp · e_xy · cos(θ − ψ)` and
`du.ω = −Ktheta · e_θ − v_ref · sinc(e_θ/2) · sin(ψ − α/2)`, where
`e_x = x − x_ref`, `e_y = y − y_ref`, `e_θ = angleWithinPI(θ − θ_ref)`,
`α = θ + θ_ref`, `ψ = atan2(e_y, e_x)`, `e_xy = √(e_x² + e_y²)` and
`v_ref = u_ref.v`. -/
theorem compute_law_formula (s : LyapState) (pose : Pose) (u0 : Vec2)
    (h1 : s.u_desired ≠ []) (h2 : s.pose_desired ≠ [])
    (hlen : s.u_desired.length = s.pose_desired.length)
    (hf : s.finished = false) (ht : 0 ≤ s.current_time) (hdt : 0 < s.dt) :
    ∃ u_ref pose_ref,
      getControlInputDesiredOnTime s s.current_time = some u_ref ∧
      getPoseDesiredOnTime s s.current_time = some pose_ref ∧
      computeLaw s pose u0 =
        ⟨updateTrackingErrors s pose_ref pose,
         (u_ref.1 +
            -s.Kp *
              Real.sqrt ((pose.1 - pose_ref.1) ^ 2 + (pose.2.1 - pose_ref.2.1) ^ 2) *
              Real.cos (pose.2.2 -
                atan2 (pose.2.1 - pose_ref.2.1) (pose.1 - pose_ref.1)),
          u_ref.2 +
            (-s.Ktheta * angleWithinPI (pose.2.2 - pose_ref.2.2) -
              u_ref.1 * sinc (angleWithinPI (pose.2.2 - pose_ref.2.2) * 0.5) *
                Real.sin (atan2 (pose.2.1 - pose_ref.2.1) (pose.1 - pose_ref.1) -
                  (pose.2.2 + pose_ref.2.2) * 0.5))),
         none⟩ := by
  obtain ⟨u_ref, pose_ref, hu, hp⟩ := lookups_succeed s ht hdt h2 hlen
  refine ⟨u_ref, pose_ref, hu, hp, ?_⟩
  unfold computeLaw
  rw [if_neg (by simp [h1, h2]), if_neg (by simp [hf]), hu, hp]
  rfl

/-- Witness for C1: the control law evaluated on a concrete one-sample
trajectory. -/
theorem compute_law_formula_witness :
    ∃ u_ref pose_ref,
      getControlInputDesiredOnTime exampleTracking exampleTracking.current_time =
        some u_ref ∧
      getPoseDesiredOnTime exampleTracking exampleTracking.current_time =
        some pose_ref ∧
      computeLaw exampleTracking (1, 2, 3) (0, 0) =
        ⟨updateTrackingErrors exampleTracking pose_ref (1, 2, 3),
         (u_ref.1 +
            -exampleTracking.Kp *
              Real.sqrt (((1 : ℝ) - pose_ref.1) ^ 2 + ((2 : ℝ) - pose_ref.2.1) ^ 2) *
              Real.cos ((3 : ℝ) -
                atan2 ((2 : ℝ) - pose_ref.2.1) ((1 : ℝ) - pose_ref.1)),
          u_ref.2 +
            (-exampleTracking.Ktheta * angleWithinPI ((3 : ℝ) - pose_ref.2.2) -
              u_ref.1 * sinc (angleWithinPI ((3 : ℝ) - pose_ref.2.2) * 0.5) *
                Real.sin (atan2 ((2 : ℝ) - pose_ref.2.1) ((1 : ℝ) - pose_ref.1) -
                  ((3 : ℝ) + pose_ref.2.2) * 0.5))),
         none⟩ :=
  compute_law_formula exampleTracking (1, 2, 3) (0, 0)
    (by simp [exampleTracking]) (by simp [exampleTracking]) rfl rfl le_rfl one_pos

/-- A zero offset roto-translates every pose to itself. -/
theorem rotoTranslate_zero (p : Pose) : rotoTranslate (0, 0, 0) p = p := by
  simp [rotoTranslate]

/-- The inverse roto-translation undoes the roto-translation. -/
theorem invRotoTranslate_rotoTranslate (off p : Pose) :
    invRotoTranslate off (rotoTranslate off p) = p := by
  have h := Real.sin_sq_add_cos_sq off.2.2
  obtain ⟨p1, p2, p3⟩ := p
  simp only [invRotoTranslate, rotoTranslate, Prod.mk.injEq]
  refine ⟨?_, ?_, ?_⟩
  · linear_combination p1 * h
  · linear_combination p2 * h
  · ring

/-- A successful `copyTrajectory` appends exactly the supplied inputs and
the roto-translated supplied poses. -/
theorem copyTrajectory_effect (s : LyapState) (v ω x y θ : List ℝ)
    (hω : v.length ≤ ω.length) (hy : x.length ≤ y.length)
    (hθ : x.length ≤ θ.length) :
    copyTrajectory s v ω x y θ = some
      { s with
        u_desired := s.u_desired ++ v.zip ω
        pose_desired := s.pose_desired ++
          (x.zip (y.zip θ)).map (fun p => rotoTranslate s.pose_offset p)
        time_end := s.dt * ((s.pose_desired ++
          (x.zip (y.zip θ)).map (fun p => rotoTranslate s.pose_offset p)).length : ℝ)
        finished := false } := by
  unfold copyTrajectory
  rw [if_pos ⟨hω, hy, hθ⟩]

/-- C6: `copyTrajectory` stores the `(v, ω)` samples unchanged and each pose
sample roto-translated by the offset pose; on an empty store a zero offset
stores the pose samples verbatim, and for any offset the inverse
roto-translation of the stored poses recovers the supplied samples. -/
theorem copy_trajectory_rototranslation (s : LyapState) (v ω x y θ : List ℝ)
    (hω : v.length ≤ ω.length) (hy : x.length ≤ y.length)
    (hθ : x.length ≤ θ.length) :
    ∃ s', copyTrajectory s v ω x y θ = some s' ∧
      s'.u_desired = s.u_desired ++ v.zip ω ∧
      s'.pose_desired = s.pose_desired ++
        (x.zip (y.zip θ)).map (fun p => rotoTranslate s.pose_offset p) ∧
      (s.pose_offset = (0, 0, 0) → s.pose_desired = [] →
        s'.pose_desired = x.zip (y.zip θ)) ∧
      (s.pose_desired = [] →
        s'.pose_desired.map (fun q => invRotoTranslate s.pose_offset q) =
          x.zip (y.zip θ)) := by
  refine ⟨_, copyTrajectory_effect s v ω x y θ hω hy hθ, rfl, rfl, ?_, ?_⟩
  · intro h0 hnil
    simp [hnil, h0, rotoTranslate]
  · intro hnil
    simp [hnil, List.map_map, Function.comp_def, invRotoTranslate_rotoTranslate]

/-- Witness for C6: a singleton trajectory loaded with a non-trivial offset. -/
theorem copy_trajectory_rototranslation_witness :
    ∃ s', copyTrajectory (mkLyapController 1 1 1) [2] [3] [4] [5] [6] = some s' ∧
      s'.u_desired = (mkLyapController 1 1 1).u_desired ++ [(2 : ℝ)].zip [3] ∧
      s'.pose_desired = (mkLyapController 1 1 1).pose_desired ++
        ([(4 : ℝ)].zip ([(5 : ℝ)].zip [6])).map
          (fun p => rotoTranslate (mkLyapController 1 1 1).pose_offset p) ∧
      ((mkLyapController 1 1 1).pose_offset = (0, 0, 0) →
        (mkLyapController 1 1 1).pose_desired = [] →
        s'.pose_desired = [(4 : ℝ)].zip ([(5 : ℝ)].zip [6])) ∧
      ((mkLyapController 1 1 1).pose_desired = [] →
        s'.pose_desired.map
          (fun q => invRotoTranslate (mkLyapController 1 1 1).pose_offset q) =
          [(4 : ℝ)].zip ([(5 : ℝ)].zip [6])) :=
  copy_trajectory_rototranslation (mkLyapController 1 1 1) [2] [3] [4] [5] [6]
    (by norm_num) (by norm_num) (by norm_num)

/-- `generateTrajectory` pushes one pose per stored input. -/
theorem integrateLoop_length (dt : ℝ) (p : Pose) (l : List Vec2) :
    (integrateLoop dt p l).2.length = l.length := by
  induction l generalizing p with
  | nil => rfl
  | cons u rest ih => simp [integrateLoop, ih]

/-- Counterexample to C7: a second `copyTrajectory` on the same controller
does not replace the store — after loading one pose twice in a row the store
holds two poses, not one. -/
theorem rebuild_replaces_counterexample :
    ∃ s1 s2,
      copyTrajectory (mkLyapController 1 1 1) [0] [0] [0] [0] [0] = some s1 ∧
      copyTrajectory s1 [0] [0] [0] [0] [0] = some s2 ∧
      s1.pose_desired.length = 1 ∧
      s2.pose_desired.length = 2 ∧ s2.pose_desired.length ≠ 1 := by
  refine ⟨_, _, copyTrajectory_effect _ [0] [0] [0] [0] [0] le_rfl le_rfl le_rfl,
    copyTrajectory_effect _ [0] [0] [0] [0] [0] le_rfl le_rfl le_rfl, ?_, ?_, ?_⟩ <;>
    simp [mkLyapController]

/-- C7 (amended): each `copyTrajectory`/`generateTrajectory` invocation
appends to the trajectory store (previous contents are retained, not
replaced) and on completion leaves `time_end = dt · (number of stored
poses)` and `finished = false`; this holds for repeated rebuilds on the same
controller. -/
theorem rebuild_appends_and_resets (s : LyapState) (v ω x y θ : List ℝ)
    (hω : v.length ≤ ω.length) (hy : x.length ≤ y.length)
    (hθ : x.length ≤ θ.length) :
    (∃ s', copyTrajectory s v ω x y θ = some s' ∧
      s'.u_desired = s.u_desired ++ v.zip ω ∧
      s'.pose_desired = s.pose_desired ++
        (x.zip (y.zip θ)).map (fun p => rotoTranslate s.pose_offset p) ∧
      s'.time_end = s.dt * (s'.pose_desired.length : ℝ) ∧
      s'.finished = false) ∧
    ((generateTrajectory s).pose_desired = s.pose_desired ++
        (integrateLoop s.dt s.pose_offset s.u_desired).2 ∧
      (generateTrajectory s).pose_desired.length =
        s.pose_desired.length + s.u_desired.length ∧
      (generateTrajectory s).time_end =
        s.dt * (((generateTrajectory s).pose_desired.length : ℕ) : ℝ) ∧
      (generateTrajectory s).finished = false) := by
  refine ⟨⟨_, copyTrajectory_effect s v ω x y θ hω hy hθ, rfl, rfl, rfl, rfl⟩,
    rfl, ?_, rfl, rfl⟩
  simp [generateTrajectory, integrateLoop_length]

/-- Witness for C7 (amended): generating from a fresh controller leaves
`finished = false`. -/
theorem rebuild_appends_and_resets_witness :
    (generateTrajectory (mkLyapController 1 1 1)).finished = false :=
  (rebuild_appends_and_resets (mkLyapController 1 1 1) [] [] [] [] []
    le_rfl le_rfl le_rfl).2.2.2.2

/-- C10: the index is clamped by the pose count only, and the same index is
used to access the input store; whenever the input store is non-empty but
shorter than the pose store (and `finished = false`), some time `t ≥ 0`
makes the input lookup inside `computeLaw` fall off the end of the input
store and fail with the out-of-range error — not a returned sample, and not
`DESIRED_TRAJECTORY_INCOMPLETE`. -/
theorem input_lookup_out_of_range (s : LyapState) (pose : Pose) (u0 : Vec2)
    (hne : s.u_desired ≠ [])
    (hlt : s.u_desired.length < s.pose_desired.length)
    (hf : s.finished = false) (hdt : 0 < s.dt) :
    ∃ t : ℝ, 0 ≤ t ∧
      (computeLaw { s with current_time := t } pose u0).err =
        some CtrlError.outOfRange := by
  have hn1 : 0 < s.pose_desired.length := lt_of_le_of_lt (Nat.zero_le _) hlt
  have hpne : s.pose_desired ≠ [] := by
    intro h
    rw [h] at hlt
    simp at hlt
  set m : ℕ := s.pose_desired.length - 1 with hm
  refine ⟨s.dt * (m : ℝ), mul_nonneg hdt.le (Nat.cast_nonneg _), ?_⟩
  have hdiv : s.dt * (m : ℝ) / s.dt = (m : ℝ) := by
    rw [mul_comm, mul_div_assoc, div_self hdt.ne', mul_one]
  have hidx : getIndexIntegerBasedOnTime { s with current_time := s.dt * (m : ℝ) }
      (s.dt * (m : ℝ)) = (m : ℤ) := by
    show (if (s.pose_desired.length : ℤ) ≤ round (s.dt * (m : ℝ) / s.dt)
        then (s.pose_desired.length : ℤ) - 1
        else round (s.dt * (m : ℝ) / s.dt)) = (m : ℤ)
    rw [hdiv, round_natCast, if_neg (by omega)]
  have hnone : getControlInputDesiredOnTime { s with current_time := s.dt * (m : ℝ) }
      (s.dt * (m : ℝ)) = none := by
    unfold getControlInputDesiredOnTime atIdx
    rw [hidx, if_pos (by positivity)]
    show s.u_desired.get? ((m : ℤ)).toNat = none
    simp only [Int.toNat_natCast]
    exact List.get?_eq_none.mpr (by omega)
  unfold computeLaw
  rw [if_neg (by simp [hne, hpne]), if_neg (by simp [hf]), hnone]

/-- Witness for C10: one stored input, two stored poses, and a time for
which the input lookup runs off the end. -/
theorem input_lookup_out_of_range_witness :
    ∃ t : ℝ, 0 ≤ t ∧
      (computeLaw { exampleShortInputs with current_time := t } (0, 0, 0)
        (0, 0)).err = some CtrlError.outOfRange :=
  input_lookup_out_of_range exampleShortInputs (0, 0, 0) (0, 0)
    (by simp [exampleShortInputs]) (by simp [exampleShortInputs]) rfl one_pos

end LyapunovSlippage
